import Mathlib

/-!
Shallow embedding of the consensus-state query layer of the Sia repository
(`package consensus`, file `src/unnamed/part_000`) together with the renter
contractor's subscription and id-resolution logic
(`src/modules/renter/contractor/contractor.go`).

Go maps are embedded as association lists (`List (key × value)`); a Go
comma-ok map read `v, ok := m[k]` becomes `m.lookup k : Option v`, and a bare
read `m[k]` (which yields the zero value on a miss) becomes
`(m.lookup k).getD default`.  Identifiers (`crypto.Hash`, output and contract
ids) are 256-bit byte arrays compared lexicographically, which coincides with
numerical order of the corresponding natural numbers, so they are embedded as
`Nat` with the zero value `0`.  Public methods, which in Go receive a pointer
to the `State`, are embedded in state-passing style `State → α × State` so
that absence of mutation is a provable fact rather than a modelling choice.
-/

namespace Sia


/-- A block payload; its hash-derived identifier `Block.ID()` is embedded as a
stored field. -/
structure Block where
  id : Nat
  deriving DecidableEq, Repr, Inhabited

/-- An unspent siacoin output (value and spend conditions). -/
structure SiacoinOutput where
  value : Nat
  unlockHash : Nat
  deriving DecidableEq, Repr, Inhabited

/-- An unspent siafund output. -/
structure SiafundOutput where
  value : Nat
  unlockHash : Nat
  claimStart : Nat
  deriving DecidableEq, Repr, Inhabited

/-- A file contract (payload is opaque to the queries embedded here). -/
structure FileContract where
  payout : Nat
  deriving DecidableEq, Repr, Inhabited

/-- A siacoin output diff, as stored on a block node. -/
structure SiacoinOutputDiff where
  new : Bool
  id : Nat
  siacoinOutput : SiacoinOutput
  deriving DecidableEq, Repr, Inhabited

/-- One node of the block tree (`blockNode`): the block, its parent's id, its
height and target, and the lazily generated diff data. -/
structure BlockNode where
  block : Block
  parent : Nat
  height : Nat
  target : Nat
  diffsGenerated : Bool
  siacoinOutputDiffs : List SiacoinOutputDiff
  deriving DecidableEq, Repr, Inhabited

/-- The consensus `State`: the block map, the current path (height-indexed ids
of the canonical chain) and the three ledger maps. -/
structure State where
  blockMap : List (Nat × BlockNode)
  currentPath : List Nat
  siacoinOutputs : List (Nat × SiacoinOutput)
  siafundOutputs : List (Nat × SiafundOutput)
  fileContracts : List (Nat × FileContract)
  deriving DecidableEq, Repr, Inhabited

/-- `height` returns the current height of the state:
`BlockHeight(len(s.currentPath) - 1)` (the Go BlockHeight type, a uint64, is embedded as `Nat`).  (For the empty path the Go expression
wraps around `2^64`; every reachable state contains at least the genesis
block, and the well-formedness predicate below demands a nonempty path.) -/
def height (s : State) : Nat :=
  s.currentPath.length - 1

/-- `blockAtHeight` returns the block on the current path with the given
height, with `exists = height <= s.height()`; on the true branch it reads
`s.blockMap[s.currentPath[height]].block`. -/
def blockAtHeight (s : State) (h : Nat) : Block × Bool :=
  if h ≤ height s then
    (((s.blockMap.lookup (s.currentPath.getD h 0)).getD default).block, true)
  else
    (default, false)

/-- `currentBlockID` returns `s.currentPath[s.height()]`. -/
def currentBlockID (s : State) : Nat :=
  s.currentPath.getD (height s) 0

/-- `currentBlockNode` returns `s.blockMap[s.currentBlockID()]` (zero value on
a miss, as for any bare Go map read). -/
def currentBlockNode (s : State) : BlockNode :=
  (s.blockMap.lookup (currentBlockID s)).getD default

/-- `output` returns the unspent siacoin output with the given id together
with its `exists` flag. -/
def output (s : State) (id : Nat) : SiacoinOutput × Bool :=
  match s.siacoinOutputs.lookup id with
  | some sco => (sco, true)
  | none => (default, false)

/-- Well-formedness of a state, as a decidable predicate: the current path is
nonempty; every id on the current path maps to a node in the block map whose
stored height is its path index; and every block-map entry's node carries the
block whose id is the entry's key. -/
def goodState (s : State) : Bool :=
  !s.currentPath.isEmpty &&
  ((List.range s.currentPath.length).all fun h =>
    match s.blockMap.lookup (s.currentPath.getD h 0) with
    | some bn => bn.height == h
    | none => false) &&
  (s.blockMap.all fun p => p.2.block.id == p.1)

/-- `BlockAtHeight`: public wrapper of `blockAtHeight`; the `RLock`/`RUnlock`
pair guards reads only, so the method returns the state unchanged. -/
def BlockAtHeightM (s : State) (h : Nat) : (Block × Bool) × State :=
  (blockAtHeight s h, s)

/-- `Block` (the method): looks the id up in the block map and returns the
node's block, or the zero value with `exists = false`. -/
def BlockM (s : State) (id : Nat) : (Block × Bool) × State :=
  match s.blockMap.lookup id with
  | none => ((default, false), s)
  | some node => ((node.block, true), s)

/-- The loop body of `BlockRange`: read each id of the path slice out of the
block map, failing if any is missing. -/
def collectRange (s : State) : List Nat → List Block → Option (List Block)
  | [], acc => some acc.reverse
  | id :: rest, acc =>
    match s.blockMap.lookup id with
    | none => none
    | some node => collectRange s rest (node.block :: acc)

/-- `BlockRange` returns the blocks whose ids occupy `s.currentPath[start : stop+1]`,
erring when `start > stop || stop > s.height()`, or (behind a DEBUG panic) when
the block map is missing a path id. -/
def BlockRangeM (s : State) (start stop : Nat) :
    Except String (List Block) × State :=
  if start > stop ∨ stop > height s then (.error "invalid range", s)
  else
    match collectRange s ((s.currentPath.drop start).take (stop - start + 1)) [] with
    | none => (.error "State is inconsistent", s)
    | some blocks => (.ok blocks, s)

/-- `BlockOutputDiffs` returns the siacoin output diffs of a known block whose
diffs have been generated. -/
def BlockOutputDiffsM (s : State) (id : Nat) :
    Except String (List SiacoinOutputDiff) × State :=
  match s.blockMap.lookup id with
  | none => (.error "requested an unknown block", s)
  | some node =>
    if !node.diffsGenerated then
      (.error "diffs have not been generated for the requested block", s)
    else (.ok node.siacoinOutputDiffs, s)

/-- Modelled from the spec: `backtrackToCurrentPath` is not under `src/`.
Per §4.4 of the spec it walks parent links from the given node until a block
on the current path (the common ancestor) is found, and returns the walked
nodes ordered from the ancestor up to the given node.  The walk shortens the
height at each step, so the node's height bounds the recursion; a missing
parent cannot occur on a well-formed state. -/
def backtrackToCurrentPath (s : State) : Nat → BlockNode → List BlockNode
  | 0, n => [n]
  | fuel + 1, n =>
    if s.currentPath.getD n.height 0 = n.block.id then [n]
    else
      match s.blockMap.lookup n.parent with
      | some p => backtrackToCurrentPath s fuel p ++ [n]
      | none => [n]

/-- `BlocksSince` backtracks from the named block to the current path, then
reports the walked blocks above the common ancestor from the named block
downward (`for i := len(path)-1; i > 0; i--`) as `removedBlocks`, and
`s.currentPath[path[0].height+1:]` as `addedBlocks`. -/
def BlocksSinceM (s : State) (id : Nat) :
    Except String (List Nat × List Nat) × State :=
  match s.blockMap.lookup id with
  | none => (.error "block is unknown", s)
  | some node =>
    let path := backtrackToCurrentPath s node.height node
    (.ok ((path.drop 1).reverse.map fun m => m.block.id,
          s.currentPath.drop ((path.headD node).height + 1)), s)

/-- `FileContract` (the method): ledger map lookup with an `exists` flag. -/
def FileContractM (s : State) (id : Nat) :
    (FileContract × Bool) × State :=
  match s.fileContracts.lookup id with
  | some fc => ((fc, true), s)
  | none => ((default, false), s)

/-- `CurrentBlock` returns the current block node's block. -/
def CurrentBlockM (s : State) : Block × State :=
  ((currentBlockNode s).block, s)

/-- `Height` (the method): public wrapper of `height`. -/
def HeightM (s : State) : Nat × State :=
  (height s, s)

/-- `HeightOfBlock` returns the stored height of the block-map node with the
given id (zero with `exists = false` when the id is unknown). -/
def HeightOfBlockM (s : State) (bid : Nat) : (Nat × Bool) × State :=
  match s.blockMap.lookup bid with
  | none => ((0, false), s)
  | some bn => ((bn.height, true), s)

/-- `SiacoinOutput` (the method): public wrapper of `output`. -/
def SiacoinOutputM (s : State) (id : Nat) :
    (SiacoinOutput × Bool) × State :=
  (output s id, s)

/-- `SiafundOutput` (the method): ledger map lookup with an `exists` flag. -/
def SiafundOutputM (s : State) (id : Nat) :
    (SiafundOutput × Bool) × State :=
  match s.siafundOutputs.lookup id with
  | some sfo => ((sfo, true), s)
  | none => ((default, false), s)

/-- Pure view of `BlockAtHeight`. -/
def BlockAtHeight (s : State) (h : Nat) : Block × Bool :=
  (BlockAtHeightM s h).1

/-- Pure view of `BlockRange`. -/
def BlockRange (s : State) (start stop : Nat) : Except String (List Block) :=
  (BlockRangeM s start stop).1

/-- Pure view of `BlocksSince`. -/
def BlocksSince (s : State) (id : Nat) :
    Except String (List Nat × List Nat) :=
  (BlocksSinceM s id).1

/-- Pure view of `HeightOfBlock`. -/
def HeightOfBlock (s : State) (bid : Nat) : Nat × Bool :=
  (HeightOfBlockM s bid).1

/-- `sortedUscoSet` collects the siacoin output ids, sorts them, and maps each
id through `s.output` (ignoring the `exists` flag).  The Go code allocates the
id slice with `make(crypto.HashSlice, len(s.siacoinOutputs))` — `len` zero
hashes — and then `append`s every key, so the slice that gets sorted holds the
`len` zero ids followed by the real ids.  `sort.Sort` orders the 256-bit hash
ids ascending, embedded here as an ascending sort on `Nat`. -/
def sortedUscoSet (s : State) : List SiacoinOutput :=
  let unspentOutputs : List Nat :=
    List.insertionSort (· ≤ ·)
      (List.replicate s.siacoinOutputs.length 0 ++ s.siacoinOutputs.map fun p => p.1)
  unspentOutputs.map fun outputID => (output s outputID).1

/-- The sorted id list built by `sortedUsfoSet`, with the same
`make`-then-`append` behaviour as `sortedUscoSet`. -/
def sortedUsfoIDs (s : State) : List Nat :=
  List.insertionSort (· ≤ ·)
    (List.replicate s.siafundOutputs.length 0 ++ s.siafundOutputs.map fun p => p.1)

/-- `sortedUsfoSet` maps every sorted id through the siafund map (zero value
on a miss, which the DEBUG build asserts never happens). -/
def sortedUsfoSet (s : State) : List SiafundOutput :=
  (sortedUsfoIDs s).map fun outputID => (s.siafundOutputs.lookup outputID).getD default

/-- The DEBUG sanity check inside `sortedUsfoSet`: every id reaching the
second loop must exist in the siafund map, else the code panics with
"output doesn't exist". -/
def usfoSanityOK (s : State) : Bool :=
  (sortedUsfoIDs s).all fun outputID => (s.siafundOutputs.lookup outputID).isSome

/-- `SortedUtxoSet`: public wrapper of `sortedUscoSet`. -/
def SortedUtxoSetM (s : State) : List SiacoinOutput × State :=
  (sortedUscoSet s, s)

/-- Pure view of `SortedUtxoSet`. -/
def SortedUtxoSet (s : State) : List SiacoinOutput :=
  (SortedUtxoSetM s).1

/-- Modelled from the spec: `Nat.Inverse` lives in the types package, which
is not under `src/`; per §3 of the spec the weight of a block is `1/target`,
"compared via exact rational/integer arithmetic (never floating point)", so it
is embedded as a `ℚ` value. -/
def targetInverse (t : Nat) : ℚ :=
  1 / (t : ℚ)

/-- `currentBlockWeight` returns the inverse of the current block node's
target. -/
def currentBlockWeight (s : State) : ℚ :=
  targetInverse (currentBlockNode s).target

/-- A siacoin input: a reference to the unspent output it spends. -/
structure SiacoinInput where
  parentID : Nat
  deriving DecidableEq, Repr, Inhabited

/-- A transaction, reduced to the fields the embedded validity checks
inspect: its siacoin inputs.  Its encoded form is abstracted by the
`marshalLen` field of `ValidationEnv`. -/
structure Transaction where
  siacoinInputs : List SiacoinInput
  deriving DecidableEq, Repr, Inhabited

/-- Modelled from the spec: `BlockSizeLimit` is a constant of the types
package, not under `src/`; the spec calls it "a fixed block-size budget". -/
def BlockSizeLimit : Nat := 1000000

/-- Modelled from the spec: the component checks called by
`ValidTransactionComponents` (`FollowsStorageProofRules`, `validFileContracts`,
`validStorageProofs`, `validSignatures`) are not under `src/`.  Per §4.3 of
the spec they check "rules that do not require existence of referenced
inputs/contracts" — structural storage-proof rules, contract height
requirements satisfiable at the current height, signature verification — so
they are abstracted as arbitrary functions of the transaction and the current
height, never of the ledger maps.  `encoding.Marshal` is likewise abstracted
as an arbitrary length function. -/
structure ValidationEnv where
  marshalLen : Transaction → Nat
  followsStorageProofRules : Transaction → Option String
  validFileContracts : Nat → Transaction → Option String
  validStorageProofs : Nat → Transaction → Option String
  validSignatures : Nat → Transaction → Option String

/-- The check sequence of `ValidTransactionComponents`: the size gate
(`len(encoding.Marshal(t)) > BlockSizeLimit-5e3`), then
`FollowsStorageProofRules`, `validFileContracts`, `validStorageProofs` and
`validSignatures` in order, returning the first error.  The checks read the
state only through its height. -/
def componentChecks (env : ValidationEnv) (hgt : Nat) (t : Transaction) :
    Option String :=
  if env.marshalLen t > BlockSizeLimit - 5000 then
    some "transaction is too large"
  else
    match env.followsStorageProofRules t with
    | some e => some e
    | none =>
      match env.validFileContracts hgt t with
      | some e => some e
      | none =>
        match env.validStorageProofs hgt t with
        | some e => some e
        | none => env.validSignatures hgt t

/-- `ValidTransactionComponents` runs the check sequence at the current
height; every return path leaves the state unchanged. -/
def ValidTransactionComponentsM (env : ValidationEnv) (s : State) (t : Transaction) :
    Option String × State :=
  (componentChecks env (height s) t, s)

/-- Pure view of `ValidTransactionComponents`. -/
def ValidTransactionComponents (env : ValidationEnv) (s : State) (t : Transaction) :
    Option String :=
  (ValidTransactionComponentsM env s t).1

/-- Modelled from the spec: the body of `validTransaction` is not under `src/`
(only its public wrapper, lines 272–276 of the consensus file).  Per §4.3 it
is a superset of the component checks that "additionally requires every input
reference an output that exists and is unspent in the ledger, and no two inputs
within the same transaction double-spend the same output" (the in-block size
check is exclusive to `ValidTransactionComponents`, per the comment at its
call site). -/
def validTransaction (env : ValidationEnv) (s : State) (t : Transaction) :
    Option String :=
  if !(t.siacoinInputs.all fun i => (s.siacoinOutputs.lookup i.parentID).isSome) then
    some "transaction spends a nonexisting siacoin output"
  else if !(t.siacoinInputs.map fun i => i.parentID).eraseDups.length.beq
      (t.siacoinInputs.map fun i => i.parentID).length then
    some "transaction double-spends an output"
  else
    match env.followsStorageProofRules t with
    | some e => some e
    | none =>
      match env.validFileContracts (height s) t with
      | some e => some e
      | none =>
        match env.validStorageProofs (height s) t with
        | some e => some e
        | none => env.validSignatures (height s) t

/-- `ValidTransaction` (public wrapper of `validTransaction`). -/
def ValidTransaction (env : ValidationEnv) (s : State) (t : Transaction) :
    Option String :=
  validTransaction env s t

/-- The sentinel checkpoint `ConsensusChangeBeginning`: "replay from
genesis". -/
def consensusChangeBeginning : Nat := 0

/-- The ways `ConsensusSetSubscribe` can fail: the dedicated
`ErrInvalidConsensusChangeID`, or any other error. -/
inductive SubscribeError where
  | invalidConsensusChangeID
  | other (msg : String)
  deriving DecidableEq, Repr

/-- The `Error()` string of a subscription failure. -/
def SubscribeError.message : SubscribeError → String
  | .invalidConsensusChangeID => "invalid consensus change ID"
  | .other msg => msg

/-- The contractor's consensus checkpoint: the fields of `Contractor` that the
subscription code of `newContractor` reads and resets. -/
structure ContractorState where
  blockHeight : Nat
  lastChange : Nat
  deriving DecidableEq, Repr, Inhabited

/-- The subscription step of `newContractor` (contractor.go lines 241–251):
subscribe with the loaded checkpoint; on `ErrInvalidConsensusChangeID`, reset
`blockHeight` to 0 and `lastChange` to the genesis sentinel and subscribe
again; if an error remains, fail with "contractor subscription failed".  The
consensus set is abstracted as a function from the checkpoint argument to an
optional error; the second component records the checkpoint argument of every
`ConsensusSetSubscribe` call made, in order. -/
def newContractorSubscribe (subscribe : Nat → Option SubscribeError)
    (c : ContractorState) : Except String ContractorState × List Nat :=
  match subscribe c.lastChange with
  | none => (.ok c, [c.lastChange])
  | some SubscribeError.invalidConsensusChangeID =>
    match subscribe consensusChangeBeginning with
    | none =>
      (.ok { blockHeight := 0, lastChange := consensusChangeBeginning },
        [c.lastChange, consensusChangeBeginning])
    | some e =>
      (.error ("contractor subscription failed: " ++ e.message),
        [c.lastChange, consensusChangeBeginning])
  | some e =>
    (.error ("contractor subscription failed: " ++ e.message), [c.lastChange])

/-- `resolveID` follows the `renewedIDs` chain until an id with no entry is
reached.  The Go loop carries no built-in bound; the embedding takes explicit
fuel, and the theorems hypothesise that the chain reaches an unrenewed id
within the supplied fuel — the claim's finiteness (acyclicity) assumption. -/
def resolveIDFuel (renewedIDs : List (Nat × Nat)) :
    Nat → Nat → Nat
  | 0, id => id
  | fuel + 1, id =>
    match renewedIDs.lookup id with
    | none => id
    | some newID => resolveIDFuel renewedIDs fuel newID

/-- A two-block well-formed state: genesis (id 100) at height 0 and one child
(id 1) at height 1. -/
def exS1 : State where
  blockMap :=
    [(100, ⟨⟨100⟩, 0, 0, 50, true, []⟩), (1, ⟨⟨1⟩, 100, 1, 40, true, []⟩)]
  currentPath := [100, 1]
  siacoinOutputs := []
  siafundOutputs := []
  fileContracts := []

/-- The reorg scenario of §8 of the spec: chain `a1..a5` (ids 1–5) was
replaced by the heavier chain whose blocks `b3..b7` (ids 13–17) share the
ancestor `a2` (id 2); the old fork ids 3, 4, 5 remain in the block map but
off the current path. -/
def exS2 : State where
  blockMap :=
    [(100, ⟨⟨100⟩, 0, 0, 50, true, []⟩),
     (1, ⟨⟨1⟩, 100, 1, 50, true, []⟩),
     (2, ⟨⟨2⟩, 1, 2, 50, true, []⟩),
     (3, ⟨⟨3⟩, 2, 3, 50, true, []⟩),
     (4, ⟨⟨4⟩, 3, 4, 50, true, []⟩),
     (5, ⟨⟨5⟩, 4, 5, 50, true, []⟩),
     (13, ⟨⟨13⟩, 2, 3, 50, true, []⟩),
     (14, ⟨⟨14⟩, 13, 4, 50, true, []⟩),
     (15, ⟨⟨15⟩, 14, 5, 50, true, []⟩),
     (16, ⟨⟨16⟩, 15, 6, 50, true, []⟩),
     (17, ⟨⟨17⟩, 16, 7, 50, true, []⟩)]
  currentPath := [100, 1, 2, 13, 14, 15, 16, 17]
  siacoinOutputs := []
  siafundOutputs := []
  fileContracts := []

/-- A state holding exactly one unspent siacoin output (id 5) and one unspent
siafund output (id 7). -/
def exS3 : State where
  blockMap := [(100, ⟨⟨100⟩, 0, 0, 50, true, []⟩)]
  currentPath := [100]
  siacoinOutputs := [(5, ⟨10, 77⟩)]
  siafundOutputs := [(7, ⟨3, 88, 0⟩)]
  fileContracts := []

/-- `exS1` with one unspent siacoin output, id 1. -/
def exS4 : State :=
  { exS1 with siacoinOutputs := [(1, ⟨10, 77⟩)] }

/-- A validation environment in which every component check passes and every
transaction encodes to 0 bytes. -/
def env0 : ValidationEnv where
  marshalLen := fun _ => 0
  followsStorageProofRules := fun _ => none
  validFileContracts := fun _ _ => none
  validStorageProofs := fun _ _ => none
  validSignatures := fun _ _ => none

/-- `env0`, except every transaction encodes to `BlockSizeLimit` bytes. -/
def envBig : ValidationEnv :=
  { env0 with marshalLen := fun _ => BlockSizeLimit }

/-- A transaction with a single input spending output id 1. -/
def tx1 : Transaction :=
  ⟨[⟨1⟩]⟩

theorem lookup_mem {α β : Type} [BEq α] [LawfulBEq α] {l : List (α × β)} {k : α} {v : β}
    (h : l.lookup k = some v) : (k, v) ∈ l := by
  induction l with
  | nil => simp [List.lookup] at h
  | cons p rest ih =>
    rw [List.lookup] at h
    by_cases hk : k == p.1
    · simp [hk] at h
      have hk' : k = p.1 := by simpa using hk
      obtain ⟨a, b⟩ := p
      simp at hk' h
      subst hk'
      subst h
      exact List.mem_cons_self _ _
    · simp [hk] at h
      right
      exact ih h

theorem goodState_path_node {s : State} (hs : goodState s = true)
    {h : Nat} (hh : h < s.currentPath.length) :
    ∃ bn, s.blockMap.lookup (s.currentPath.getD h 0) = some bn ∧ bn.height = h := by
  unfold goodState at hs
  simp only [Bool.and_eq_true, List.all_eq_true] at hs
  obtain ⟨⟨-, hpath⟩, -⟩ := hs
  have := hpath h (by simpa using List.mem_range.mpr hh)
  revert this
  cases hl : s.blockMap.lookup (s.currentPath.getD h 0) with
  | none => intro this; simp at this
  | some bn =>
    intro this
    exact ⟨bn, rfl, by simpa using this⟩

theorem goodState_key {s : State} (hs : goodState s = true)
    {k : Nat} {bn : BlockNode} (hl : s.blockMap.lookup k = some bn) :
    bn.block.id = k := by
  unfold goodState at hs
  simp only [Bool.and_eq_true, List.all_eq_true] at hs
  obtain ⟨-, hkeys⟩ := hs
  have := hkeys (k, bn) (lookup_mem hl)
  simpa using this

theorem goodState_path_nonempty {s : State} (hs : goodState s = true) :
    s.currentPath ≠ [] := by
  unfold goodState at hs
  simp only [Bool.and_eq_true] at hs
  obtain ⟨⟨hne, -⟩, -⟩ := hs
  simpa [List.isEmpty_iff] using hne

theorem goodState_mem_path {s : State} (hs : goodState s = true) {id : Nat}
    (hid : id ∈ s.currentPath) : (s.blockMap.lookup id).isSome = true := by
  obtain ⟨i, hi, rfl⟩ := List.mem_iff_getElem.mp hid
  obtain ⟨bn, hbn, -⟩ := goodState_path_node hs hi
  rw [List.getD_eq_getElem _ _ hi] at hbn
  simp [hbn]

theorem collectRange_eq (s : State) (l : List Nat) (acc : List Block)
    (hl : ∀ id ∈ l, (s.blockMap.lookup id).isSome = true) :
    collectRange s l acc =
      some (acc.reverse ++ l.map fun id => ((s.blockMap.lookup id).getD default).block) := by
  induction l generalizing acc with
  | nil => simp [collectRange]
  | cons id rest ih =>
    have hid := hl id (List.mem_cons_self _ _)
    cases hlk : s.blockMap.lookup id with
    | none => rw [hlk] at hid; simp at hid
    | some node =>
      simp only [collectRange, hlk]
      rw [ih (node.block :: acc) fun i hi => hl i (List.mem_cons_of_mem _ hi)]
      simp [hlk]

theorem backtrack_ne_nil (s : State) (fuel : Nat) (n : BlockNode) :
    backtrackToCurrentPath s fuel n ≠ [] := by
  cases fuel with
  | zero => simp [backtrackToCurrentPath]
  | succ fuel =>
    unfold backtrackToCurrentPath
    split
    · simp
    · cases s.blockMap.lookup n.parent <;> simp

theorem backtrack_offPath (s : State) :
    ∀ (fuel : Nat) (n : BlockNode),
      ∀ m ∈ (backtrackToCurrentPath s fuel n).drop 1,
        s.currentPath.getD m.height 0 ≠ m.block.id := by
  intro fuel
  induction fuel with
  | zero => intro n m hm; simp [backtrackToCurrentPath] at hm
  | succ fuel ih =>
    intro n m hm
    unfold backtrackToCurrentPath at hm
    by_cases hon : s.currentPath.getD n.height 0 = n.block.id
    · rw [if_pos hon] at hm; simp at hm
    · rw [if_neg hon] at hm
      cases hlk : s.blockMap.lookup n.parent with
      | none => rw [hlk] at hm; simp at hm
      | some p =>
        rw [hlk] at hm
        have hlen : 1 ≤ (backtrackToCurrentPath s fuel p).length := by
          have := backtrack_ne_nil s fuel p
          have := List.length_pos.mpr this
          omega
        rw [List.drop_append_of_le_length hlen] at hm
        rcases List.mem_append.mp hm with hm' | hm'
        · exact ih p m hm'
        · have : m = n := by simpa using hm'
          subst this
          exact hon

theorem backtrack_mem_lookup (s : State) :
    ∀ (fuel : Nat) (n : BlockNode),
      ∀ m ∈ backtrackToCurrentPath s fuel n,
        m = n ∨ ∃ k, s.blockMap.lookup k = some m := by
  intro fuel
  induction fuel with
  | zero => intro n m hm; simp [backtrackToCurrentPath] at hm; exact Or.inl hm
  | succ fuel ih =>
    intro n m hm
    unfold backtrackToCurrentPath at hm
    by_cases hon : s.currentPath.getD n.height 0 = n.block.id
    · rw [if_pos hon] at hm
      exact Or.inl (by simpa using hm)
    · rw [if_neg hon] at hm
      cases hlk : s.blockMap.lookup n.parent with
      | none =>
        rw [hlk] at hm
        exact Or.inl (by simpa using hm)
      | some p =>
        rw [hlk] at hm
        rcases List.mem_append.mp hm with hm' | hm'
        · rcases ih p m hm' with hm'' | hm''
          · exact Or.inr ⟨n.parent, hm'' ▸ hlk⟩
          · exact Or.inr hm''
        · exact Or.inl (by simpa using hm')

theorem backtrack_getLast (s : State) :
    ∀ (fuel : Nat) (n : BlockNode),
      (backtrackToCurrentPath s fuel n).getLast? = some n := by
  intro fuel
  induction fuel with
  | zero => intro n; simp [backtrackToCurrentPath]
  | succ fuel ih =>
    intro n
    unfold backtrackToCurrentPath
    split
    · simp
    · cases s.blockMap.lookup n.parent with
      | none => simp
      | some p => exact List.getLast?_concat _

/-- C1: Path consistency — for every height `h ≤ s.height()`, `blockAtHeight`
returns `(s.blockMap[s.currentPath[h]].block, true)` and
`HeightOfBlock (s.currentPath[h])` returns `(h, true)`; for every `h` strictly
above the current height `blockAtHeight` returns `exists = false`. -/
theorem path_consistency (s : State) (h : Nat) (hs : goodState s = true) :
    (h ≤ height s →
      BlockAtHeight s h =
        (((s.blockMap.lookup (s.currentPath.getD h 0)).getD default).block, true) ∧
      HeightOfBlock s (s.currentPath.getD h 0) = (h, true)) ∧
    (height s < h → BlockAtHeight s h = (default, false)) := by
  constructor
  · intro hle
    constructor
    · unfold BlockAtHeight BlockAtHeightM blockAtHeight
      rw [if_pos hle]
    · have hlt : h < s.currentPath.length := by
        have hne := goodState_path_nonempty hs
        have hpos : 0 < s.currentPath.length := List.length_pos.mpr hne
        have hle' : h ≤ s.currentPath.length - 1 := hle
        exact Nat.lt_of_le_of_lt hle' (Nat.sub_lt hpos Nat.one_pos)
      obtain ⟨bn, hbn, hh⟩ := goodState_path_node hs hlt
      unfold HeightOfBlock HeightOfBlockM
      rw [hbn]
      simp [hh]
  · intro hgt
    unfold BlockAtHeight BlockAtHeightM blockAtHeight
    rw [if_neg (Nat.not_le.mpr hgt)]

/-- Witness for C1 at the concrete state `exS1` and height 1. -/
theorem path_consistency_witness :
    BlockAtHeight exS1 1 =
      (((exS1.blockMap.lookup (exS1.currentPath.getD 1 0)).getD default).block, true) ∧
    HeightOfBlock exS1 (exS1.currentPath.getD 1 0) = (1, true) :=
  (path_consistency exS1 1 (by decide)).1 (by decide)

/-- C2: for every block id in the block map, `BlocksSince` succeeds;
`removedBlocks` holds only ids of known blocks lying off the current path
(the fork section strictly above the common ancestor), ordered from the given
block downward (its first element is the given block's own id); and
`addedBlocks` is exactly the tail of the current path strictly above the
common ancestor's height, in ascending height order.  In the spec's reorg
scenario — chain `a1..a5` replaced by the heavier `b3..b7` sharing ancestor
`a2` — `BlocksSince a5` reports removed `[a5, a4, a3]` and added
`[b3, b4, b5, b6, b7]`. -/
theorem blocksSince_reorg_spec :
    (∀ (s : State) (id : Nat) (node : BlockNode),
      goodState s = true → s.blockMap.lookup id = some node →
      ∃ removed added,
        BlocksSince s id = .ok (removed, added) ∧
        (∀ r ∈ removed, ∃ m, s.blockMap.lookup r = some m ∧
          s.currentPath.getD m.height 0 ≠ r) ∧
        (removed ≠ [] → removed.head? = some id) ∧
        added = s.currentPath.drop
          (((backtrackToCurrentPath s node.height node).headD node).height + 1)) ∧
    (∀ (s : State) (id : Nat), s.blockMap.lookup id = none →
      BlocksSince s id = .error "block is unknown") ∧
    BlocksSince exS2 5 = .ok ([5, 4, 3], [13, 14, 15, 16, 17]) := by
  refine ⟨?_, ?_, rfl⟩
  · intro s id node hs hn
    unfold BlocksSince BlocksSinceM
    rw [hn]
    refine ⟨_, _, rfl, ?_, ?_, rfl⟩
    · intro r hr
      simp only [List.mem_map, List.mem_reverse] at hr
      obtain ⟨m, hm, rfl⟩ := hr
      have hoff := backtrack_offPath s node.height node m hm
      have hmem := backtrack_mem_lookup s node.height node m (List.mem_of_mem_drop hm)
      rcases hmem with rfl | ⟨k, hk⟩
      · have hid := goodState_key hs hn
        exact ⟨m, hid ▸ hn, hoff⟩
      · have hkid := goodState_key hs hk
        exact ⟨m, hkid ▸ hk, hoff⟩
    · intro hne
      have hid := goodState_key hs hn
      have hlast := backtrack_getLast s node.height node
      rcases hpath : backtrackToCurrentPath s node.height node with - | ⟨a, t⟩
      · exact absurd hpath (backtrack_ne_nil s node.height node)
      · rcases ht : t with - | ⟨b, t'⟩
        · subst ht
          rw [hpath] at hne
          simp at hne
        · rw [hpath, ht] at hlast
          rw [List.getLast?_cons_cons] at hlast
          simp only [List.drop_succ_cons, List.drop_zero, List.head?_map,
            List.head?_reverse]
          rw [hlast]
          simp [hid]
  · intro s id hu
    unfold BlocksSince BlocksSinceM
    rw [hu]

/-- Witness for C2, applying the general part at the reorg scenario state
`exS2` and the off-path block id 5 (`a5`). -/
theorem blocksSince_reorg_spec_witness :
    ∃ removed added,
      BlocksSince exS2 5 = .ok (removed, added) ∧
      (∀ r ∈ removed, ∃ m, exS2.blockMap.lookup r = some m ∧
        exS2.currentPath.getD m.height 0 ≠ r) ∧
      (removed ≠ [] → removed.head? = some 5) ∧
      added = exS2.currentPath.drop
        (((backtrackToCurrentPath exS2 (5 : Nat)
            ⟨⟨5⟩, 4, 5, 50, true, []⟩).headD ⟨⟨5⟩, 4, 5, 50, true, []⟩).height + 1) :=
  blocksSince_reorg_spec.1 exS2 5 ⟨⟨5⟩, 4, 5, 50, true, []⟩ (by decide) (by decide)

/-- C3 (the code contradicts its own DEBUG assertion): on a ledger with
exactly one siacoin output (id 5) and one siafund output (id 7),
`SortedUtxoSet` returns two elements — a zero-valued placeholder absent from
the map, then the real output — because `make(crypto.HashSlice, len(...))`
followed by `append` leaves `len` zero-valued ids in the slice that gets
sorted; `sortedUsfoSet` misbehaves identically, and the `exists` flag its
DEBUG build asserts ("output doesn't exist") is false for the placeholder
id. -/
theorem sortedUtxoSet_duplication_bug :
    SortedUtxoSet exS3 = [⟨0, 0⟩, ⟨10, 77⟩] ∧
    exS3.siacoinOutputs.map (fun p => p.2) = [⟨10, 77⟩] ∧
    (⟨0, 0⟩ : SiacoinOutput) ∉ exS3.siacoinOutputs.map (fun p => p.2) ∧
    sortedUsfoSet exS3 = [⟨0, 0, 0⟩, ⟨3, 88, 0⟩] ∧
    usfoSanityOK exS3 = false := by
  decide

/-- The amended C3: the id list that `sortedUscoSet` sorts holds the map's
ids preceded by one zero-valued placeholder id per output, so the returned
list has one element per output PLUS one zero-value element per output; the
elements at the real ids are the map's outputs. -/
theorem sortedUscoSet_actual (s : State) :
    (sortedUscoSet s).length = 2 * s.siacoinOutputs.length ∧
    (sortedUsfoSet s).length = 2 * s.siafundOutputs.length := by
  constructor
  · unfold sortedUscoSet
    simp [List.length_insertionSort]
    omega
  · unfold sortedUsfoSet sortedUsfoIDs
    simp [List.length_insertionSort]
    omega

/-- C4: `BlockRange` errs exactly when `start > stop` or `stop` exceeds the
current height; otherwise it returns the `(stop - start) + 1` blocks whose
ids occupy positions `start` through `stop` of the current path, in height
order. -/
theorem blockRange_spec (s : State) (start stop : Nat)
    (hs : goodState s = true) :
    (start > stop ∨ stop > height s →
      BlockRange s start stop = .error "invalid range") ∧
    (start ≤ stop → stop ≤ height s →
      BlockRange s start stop =
        .ok (((s.currentPath.drop start).take (stop - start + 1)).map
          fun id => ((s.blockMap.lookup id).getD default).block) ∧
      ((s.currentPath.drop start).take (stop - start + 1)).length
        = (stop - start) + 1) := by
  constructor
  · intro hbad
    unfold BlockRange BlockRangeM
    rw [if_pos hbad]
  · intro hss hsh
    have hnot : ¬ (start > stop ∨ stop > height s) := by
      push_neg
      exact ⟨hss, hsh⟩
    constructor
    · unfold BlockRange BlockRangeM
      rw [if_neg hnot]
      rw [collectRange_eq s _ [] fun id hid =>
        goodState_mem_path hs (List.mem_of_mem_drop (List.mem_of_mem_take hid))]
      simp
    · have hlen : stop < s.currentPath.length := by
        have hne := goodState_path_nonempty hs
        have hpos : 0 < s.currentPath.length := List.length_pos.mpr hne
        have hsh' : stop ≤ s.currentPath.length - 1 := hsh
        exact Nat.lt_of_le_of_lt hsh' (Nat.sub_lt hpos Nat.one_pos)
      rw [List.length_take, List.length_drop]
      omega

/-- Witness for C4 at the concrete state `exS1`, range `[0, 1]`. -/
theorem blockRange_spec_witness :
    BlockRange exS1 0 1 =
      .ok (((exS1.currentPath.drop 0).take (1 - 0 + 1)).map
        fun id => ((exS1.blockMap.lookup id).getD default).block) ∧
    ((exS1.currentPath.drop 0).take (1 - 0 + 1)).length = (1 - 0) + 1 :=
  (blockRange_spec exS1 0 1 (by decide)).2 (by decide) (by decide)

/-- C5: a transaction whose encoded size exceeds `BlockSizeLimit - 5e3` is
rejected by `ValidTransactionComponents`, whatever the ledger maps and the
transaction's other fields (the check is the first one performed). -/
theorem validTransactionComponents_size_gate (env : ValidationEnv) (s : State)
    (t : Transaction) (hbig : env.marshalLen t > BlockSizeLimit - 5000) :
    ValidTransactionComponents env s t = some "transaction is too large" := by
  unfold ValidTransactionComponents ValidTransactionComponentsM componentChecks
  rw [if_pos hbig]

/-- Witness for C5: under `envBig` every transaction encodes to
`BlockSizeLimit` bytes, which exceeds the budget. -/
theorem validTransactionComponents_size_gate_witness :
    ValidTransactionComponents envBig exS1 tx1 = some "transaction is too large" :=
  validTransactionComponents_size_gate envBig exS1 tx1 (by decide)

/-- C6: `ValidTransactionComponents` is insensitive to the siacoin-output
map, so a missing referenced input alone can never fail it; `validTransaction`
requires every input to reference an existing unspent output; and concretely,
the otherwise well-formed `tx1` on the outputless ledger `exS1` passes the
former and fails the latter. -/
theorem components_vs_full_validation :
    (∀ (env : ValidationEnv) (s : State) (t : Transaction)
        (sco : List (Nat × SiacoinOutput)),
      ValidTransactionComponents env { s with siacoinOutputs := sco } t =
        ValidTransactionComponents env s t) ∧
    (∀ (env : ValidationEnv) (s : State) (t : Transaction),
      validTransaction env s t = none →
      ∀ i ∈ t.siacoinInputs, (s.siacoinOutputs.lookup i.parentID).isSome = true) ∧
    ValidTransactionComponents env0 exS1 tx1 = none ∧
    validTransaction env0 exS1 tx1 =
      some "transaction spends a nonexisting siacoin output" := by
  refine ⟨fun env s t sco => rfl, ?_, rfl, rfl⟩
  intro env s t hok i hi
  unfold validTransaction at hok
  by_cases hall :
      (t.siacoinInputs.all fun i => (s.siacoinOutputs.lookup i.parentID).isSome) = true
  · exact List.all_eq_true.mp hall i hi
  · rw [Bool.not_eq_true] at hall
    rw [hall] at hok
    simp at hok

/-- Witness for C6's ledger-existence direction: on `exS4` (which holds
output 1) `tx1` fully validates, so its input's referenced output exists. -/
theorem components_vs_full_validation_witness :
    (exS4.siacoinOutputs.lookup (1 : Nat)).isSome = true :=
  components_vs_full_validation.2.1 env0 exS4 tx1 (by decide) ⟨1⟩ (by decide)

/-- C7: if the first subscription attempt fails with
`ErrInvalidConsensusChangeID`, `newContractor` resets the checkpoint
(`blockHeight = 0`, `lastChange = ConsensusChangeBeginning`) and calls
subscribe exactly once more, with the genesis sentinel; if the retry fails —
or the first attempt fails with any other error — `newContractor` returns an
error and no contractor. -/
theorem newContractor_subscribe_retry
    (subscribe : Nat → Option SubscribeError) (c : ContractorState) :
    (subscribe c.lastChange = some SubscribeError.invalidConsensusChangeID →
      (newContractorSubscribe subscribe c).2 =
        [c.lastChange, consensusChangeBeginning] ∧
      (subscribe consensusChangeBeginning = none →
        (newContractorSubscribe subscribe c).1 =
          .ok { blockHeight := 0, lastChange := consensusChangeBeginning }) ∧
      (∀ e, subscribe consensusChangeBeginning = some e →
        (newContractorSubscribe subscribe c).1 =
          .error ("contractor subscription failed: " ++ e.message))) ∧
    (∀ msg, subscribe c.lastChange = some (SubscribeError.other msg) →
      (newContractorSubscribe subscribe c).1 =
        .error ("contractor subscription failed: " ++ msg) ∧
      (newContractorSubscribe subscribe c).2 = [c.lastChange]) ∧
    (subscribe c.lastChange = none →
      (newContractorSubscribe subscribe c).1 = .ok c) := by
  refine ⟨?_, ?_, ?_⟩
  · intro h1
    unfold newContractorSubscribe
    rw [h1]
    cases h2 : subscribe consensusChangeBeginning with
    | none =>
      exact ⟨rfl, fun _ => rfl, fun e he => Option.noConfusion he⟩
    | some e =>
      refine ⟨rfl, fun hn => Option.noConfusion hn, fun e' he' => ?_⟩
      cases he'
      rfl
  · intro msg h1
    unfold newContractorSubscribe
    rw [h1]
    exact ⟨rfl, rfl⟩
  · intro h1
    unfold newContractorSubscribe
    rw [h1]

/-- Witness for C7: a consensus set that rejects checkpoint 9 as invalid but
accepts the genesis sentinel; the contractor retries once from genesis. -/
theorem newContractor_subscribe_retry_witness :
    (newContractorSubscribe
      (fun cid => if cid = 9 then some SubscribeError.invalidConsensusChangeID else none)
      ⟨55, 9⟩).2 = [9, consensusChangeBeginning] :=
  ((newContractor_subscribe_retry
    (fun cid => if cid = 9 then some SubscribeError.invalidConsensusChangeID else none)
    ⟨55, 9⟩).1 (by decide)).1

/-- C8: every read query — `BlockAtHeight`, `Block`, `BlockRange`,
`BlocksSince`, `BlockOutputDiffs`, `HeightOfBlock`, `SiacoinOutput`,
`SiafundOutput`, `FileContract`, `SortedUtxoSet`, `CurrentBlock`, `Height` —
returns the state (block map, current path and the three ledger maps)
unchanged, in every branch, including the error and `exists = false`
branches. -/
theorem read_queries_preserve_state (s : State) (h start stop id : Nat) :
    (BlockAtHeightM s h).2 = s ∧
    (BlockM s id).2 = s ∧
    (BlockRangeM s start stop).2 = s ∧
    (BlocksSinceM s id).2 = s ∧
    (BlockOutputDiffsM s id).2 = s ∧
    (HeightOfBlockM s id).2 = s ∧
    (SiacoinOutputM s id).2 = s ∧
    (SiafundOutputM s id).2 = s ∧
    (FileContractM s id).2 = s ∧
    (SortedUtxoSetM s).2 = s ∧
    (CurrentBlockM s).2 = s ∧
    (HeightM s).2 = s := by
  refine ⟨rfl, ?_, ?_, ?_, ?_, ?_, rfl, ?_, ?_, rfl, rfl, rfl⟩
  · unfold BlockM
    cases s.blockMap.lookup id <;> rfl
  · unfold BlockRangeM
    split
    · rfl
    · split <;> rfl
  · unfold BlocksSinceM
    cases s.blockMap.lookup id <;> rfl
  · unfold BlockOutputDiffsM
    cases s.blockMap.lookup id with
    | none => rfl
    | some node => by_cases hd : node.diffsGenerated <;> simp [hd]
  · unfold HeightOfBlockM
    cases s.blockMap.lookup id <;> rfl
  · unfold SiafundOutputM
    cases s.siafundOutputs.lookup id <;> rfl
  · unfold FileContractM
    cases s.fileContracts.lookup id <;> rfl

/-- C9: `currentBlockWeight` is exactly the rational `1 / target` of the
current block node, an exact rational-number value, so any two states whose
current blocks carry equal targets yield equal weights (chain-weight
comparison is deterministic). -/
theorem currentBlockWeight_exact :
    (∀ s : State, currentBlockWeight s = 1 / ((currentBlockNode s).target : ℚ)) ∧
    (∀ s₁ s₂ : State,
      (currentBlockNode s₁).target = (currentBlockNode s₂).target →
      currentBlockWeight s₁ = currentBlockWeight s₂) := by
  refine ⟨fun s => rfl, fun s₁ s₂ hte => ?_⟩
  unfold currentBlockWeight
  rw [hte]

/-- Witness for C9 at two distinct states sharing the current target 40:
`exS1` and `exS1` with a different ledger. -/
theorem currentBlockWeight_exact_witness :
    currentBlockWeight exS1 = currentBlockWeight exS4 :=
  currentBlockWeight_exact.2 exS1 exS4 (by decide)

theorem resolveIDFuel_of_lookup_none
    (m : List (Nat × Nat)) (k : Nat) (x : Nat) (hx : m.lookup x = none) :
    resolveIDFuel m k x = x := by
  cases k with
  | zero => rfl
  | succ k => unfold resolveIDFuel; rw [hx]

theorem resolveIDFuel_fuel_irrelevant (m : List (Nat × Nat)) :
    ∀ n k id, n ≤ k → m.lookup (resolveIDFuel m n id) = none →
      resolveIDFuel m k id = resolveIDFuel m n id := by
  intro n
  induction n with
  | zero =>
    intro k id hk hterm
    have : resolveIDFuel m 0 id = id := rfl
    rw [this] at hterm ⊢
    exact resolveIDFuel_of_lookup_none m k id hterm
  | succ n ih =>
    intro k id hk hterm
    cases k with
    | zero => omega
    | succ k =>
      cases hl : m.lookup id with
      | none =>
        unfold resolveIDFuel
        rw [hl]
      | some newID =>
        unfold resolveIDFuel
        rw [hl]
        unfold resolveIDFuel at hterm
        rw [hl] at hterm
        exact ih k newID (by omega) hterm

/-- C10: whenever the renewal chain starting at `id` reaches, within some
finite number of steps, an id with no entry in `renewedIDs` (the claim's
acyclicity assumption), `resolveID` is insensitive to extra fuel; its result
is a fixed point (`resolveID (resolveID id) = resolveID id`); and an id with
no entry resolves to itself. -/
theorem resolveID_chain (m : List (Nat × Nat)) (n : Nat) (id : Nat)
    (hterm : m.lookup (resolveIDFuel m n id) = none) :
    (∀ k, n ≤ k → resolveIDFuel m k id = resolveIDFuel m n id) ∧
    (∀ k, resolveIDFuel m k (resolveIDFuel m n id) = resolveIDFuel m n id) ∧
    (∀ k x, m.lookup x = none → resolveIDFuel m k x = x) :=
  ⟨fun k hk => resolveIDFuel_fuel_irrelevant m n k id hk hterm,
   fun k => resolveIDFuel_of_lookup_none m k _ hterm,
   fun k x hx => resolveIDFuel_of_lookup_none m k x hx⟩

/-- Witness for C10 on the renewal chain 1 → 2 → 3: resolution with ample
fuel lands on 3, which has no entry, and resolving again is a no-op. -/
theorem resolveID_chain_witness :
    resolveIDFuel [(1, 2), (2, 3)] 7 (resolveIDFuel [(1, 2), (2, 3)] 5 1) =
      resolveIDFuel [(1, 2), (2, 3)] 5 1 :=
  (resolveID_chain [(1, 2), (2, 3)] 5 1 (by decide)).2.1 7

end Sia
